import Mathlib

/-!
Verification development for the market-data distribution server
(`server/src/main.rs` and `server/src/live_data.rs`).

The Rust code is shallowly embedded: pure computations become Lean
functions over `ℕ`, `ℤ`, `ℚ`, `String` and `List`; `f64` arithmetic on
the generator paths is modelled by exact rational arithmetic; `u64`
arithmetic is `ℕ` with an explicit `% 2^64` where overflow could occur;
fallible operations return `Option`.  Randomly drawn quantities
(`rng.gen_range`, `rng.gen_bool`) become explicit parameters constrained
to the range the code draws from.
-/

set_option maxRecDepth 8192

namespace MarketServer

/-! ### JSON values

Abstract model of `serde_json` values: a JSON document after lexing,
with numbers carried as exact rationals (an integral token has
denominator 1). -/

inductive Json where
  | null : Json
  | bool (b : Bool) : Json
  | num (q : ℚ) : Json
  | str (s : String) : Json
  | arr (elems : List Json) : Json
  | obj (fields : List (String × Json)) : Json

/-- First binding of `key` in an object's field list
(`serde_json::Value::get` on objects). -/
def findField : List (String × Json) → String → Option Json
  | [], _ => none
  | (k, v) :: rest, key => if k = key then some v else findField rest key

/-- Model of `serde_json::Value::get`: field lookup on objects, `none` on every
other variant. -/
def Json.get : Json → String → Option Json
  | .obj fields, key => findField fields key
  | _, _ => none

/-- Model of `Value::as_str`. -/
def Json.asStr : Json → Option String
  | .str s => some s
  | _ => none

/-- Model of `Value::as_bool`. -/
def Json.asBool : Json → Option Bool
  | .bool b => some b
  | _ => none

/-! ### Inbound control frames (`main.rs`, `ControlMsg` / `ws_connection`)

`ControlMsg { frequency_ms: Option<u64> }` deserialized with
`serde_json::from_str`.  The derived deserializer accepts a JSON object
(unknown fields ignored, duplicate `frequency_ms` fields an error,
missing or `null` field gives `None`) and also, as serde_json does for
every struct, a JSON array of the fields in declaration order — here a
one-element array.  A `u64` field accepts exactly integral numbers in
`[0, 2^64)`. -/

/-- Deserializing a `u64` from a JSON value: integral numbers in
`[0, 2^64)` succeed, everything else is an error. -/
def parseU64 (j : Json) : Option ℕ :=
  match j with
  | .num q => if q.den = 1 ∧ 0 ≤ q.num ∧ q.num < 2 ^ 64 then some q.num.toNat else none
  | _ => none

/-- Deserializing an `Option<u64>` field value: `null` gives `none`,
otherwise a `u64` is required. -/
def parseOptU64 (j : Json) : Option (Option ℕ) :=
  match j with
  | .null => some (none : Option ℕ)
  | v => (parseU64 v).map some

/-- Walk an object's fields the way the derived `visit_map` does:
remember the first `frequency_ms` value, error (`none`) on a duplicate,
ignore unknown keys. -/
def collectFreqField : List (String × Json) → Option Json → Option (Option Json)
  | [], acc => some acc
  | (k, v) :: rest, acc =>
    if k = "frequency_ms" then
      match acc with
      | some _ => none
      | none => collectFreqField rest (some v)
    else collectFreqField rest acc

/-- Result of `serde_json::from_str::<ControlMsg>` on a well-formed JSON document:
`none` is a deserialization error, `some o` is `Ok(ControlMsg { frequency_ms: o })`. -/
def parseControlMsg (j : Json) : Option (Option ℕ) :=
  match j with
  | .obj fields =>
    match collectFreqField fields none with
    | none => none
    | some none => some none
    | some (some v) => parseOptU64 v
  | .arr [v] => parseOptU64 v
  | _ => none

/-- The store performed on a parsed frequency:
`freq.max(10).min(1000)` (`main.rs` line 272). -/
def clampFreq (freq : ℕ) : ℕ := min (max freq 10) 1000

/-- Effect of one inbound text frame on the shared `sleep_ms` value
(`main.rs` lines 270-274): a successful parse carrying `Some(freq)`
stores the clamped value, everything else leaves the value unchanged. -/
def controlUpdate (sleepMs : ℕ) (j : Json) : ℕ :=
  match parseControlMsg j with
  | some (some freq) => clampFreq freq
  | _ => sleepMs

/-! ### Session handler step (`main.rs`, `ws_connection`)

One iteration of the `tokio::select!` loop.  The hub side models
`rx.recv()` (`Ok(msg)`, or the two `RecvError` variants `Lagged` and
`Closed`, which the code matches as `Err(_)`), together with the
success of the subsequent transport send.  The socket side models
`socket.recv()`: a text frame (with the result of JSON-parsing its
contents), a close frame, end of stream (`None`), and the remaining
cases (binary/ping/pong frames and receive errors) that fall into the
`_ => {}` arm. -/

inductive HubRecv where
  | ok (msg : String) : HubRecv
  | lagged : HubRecv
  | closed : HubRecv

inductive SockRecv where
  | text (parsed : Option Json) : SockRecv
  | close : SockRecv
  | streamEnd : SockRecv
  | other : SockRecv

inductive SessionEvent where
  | hub (r : HubRecv) (sendOk : Bool) : SessionEvent
  | sock (r : SockRecv) : SessionEvent

/-- One iteration of the `ws_connection` loop.  The state is the shared
`sleep_ms` value; the result is `none` when the loop `break`s
(terminating the session) and `some (sleepMs', sent)` when it
continues, with `sent` the frame forwarded to the subscriber (the
session never sends anything else, in particular no error frames). -/
def sessionStep (sleepMs : ℕ) (e : SessionEvent) : Option (ℕ × Option String) :=
  match e with
  | .hub (.ok msg) sendOk => if sendOk then some (sleepMs, some msg) else none
  | .hub .lagged _ => none
  | .hub .closed _ => none
  | .sock (.text (some j)) => some (controlUpdate sleepMs j, none)
  | .sock (.text none) => some (sleepMs, none)
  | .sock .close => none
  | .sock .streamEnd => none
  | .sock .other => some (sleepMs, none)

/-! ### Generator sleep intervals (`main.rs`)

Each generator reads the shared `sleep_ms` once per cycle.  `u64`
multiplication wraps on overflow in release builds, hence the explicit
`% 2^64`; the loaded value `f` is a `u64`, always `< 2^64`. -/

def u64Mod (n : ℕ) : ℕ := n % 2 ^ 64

/-- Price stream interval: `freq_ms.load(..).max(10)` (line 91). -/
def priceSleepMs (f : ℕ) : ℕ := max f 10

/-- Book stream interval: `(freq_book.load(..) * 2).max(50)` (line 133). -/
def bookSleepMs (f : ℕ) : ℕ := max (u64Mod (f * 2)) 50

/-- Trade stream interval: `(freq_trade.load(..) * 3).max(50)` (line 172). -/
def tradeSleepMs (f : ℕ) : ℕ := max (u64Mod (f * 3)) 50

/-! ### Simulated price generator (`main.rs`, stream 1)

`prices[idx] *= 1.0 + change` with `change = rng.gen_range(-0.002..0.002)`,
then the emitted price is `(prices[idx] * 100.0).round() / 100.0`.
`f64::round` rounds half away from zero. -/

/-- Model of `f64::round`: nearest integer, ties away from zero. -/
def rustRound (x : ℚ) : ℤ := if 0 ≤ x then ⌊x + 1 / 2⌋ else ⌈x - 1 / 2⌉

/-- Rounding to two decimal places: `(x * 100.0).round() / 100.0`. -/
def round2 (x : ℚ) : ℚ := (rustRound (x * 100) : ℚ) / 100

/-- One tick of the running price: `p *= 1.0 + change` (line 79). -/
def priceStep (p c : ℚ) : ℚ := p * (1 + c)

/-- The perturbation is drawn from `gen_range(-0.002..0.002)`:
the half-open interval `[-1/500, 1/500)`. -/
def perturbOk (c : ℚ) : Prop := -(1 / 500) ≤ c ∧ c < 1 / 500

instance (c : ℚ) : Decidable (perturbOk c) := by unfold perturbOk; infer_instance

/-- The price emitted for a tick: the running price rounded to two
decimals (line 84). -/
def emittedPrice (p : ℚ) : ℚ := round2 p

/-- Initial running prices for
`["BTC/USD", "ETH/USD", "SOL/USD", "AAPL", "TSLA"]` (line 72). -/
def initPrices : List ℚ := [45000, 2500, 120, 175, 250]

/-- Running price after a sequence of ticks with the given perturbations. -/
def runWalk (p : ℚ) (cs : List ℚ) : ℚ := cs.foldl priceStep p

/-! ### Simulated book-depth generator (`main.rs`, stream 2) -/

/-- Reference mid-price:
`if *symbol == "BTC/USD" { 45000.0 } else { 2500.0 }` (line 114). -/
def bookMid (symbol : String) : ℚ := if symbol = "BTC/USD" then 45000 else 2500

/-- The two symbols the book stream iterates over (line 109). -/
def bookSymbols : List String := ["BTC/USD", "ETH/USD"]

/-- Bid price at level `i`: `mid - (i as f64) * mid * 0.0001` (line 118). -/
def bidPrice (mid : ℚ) (i : ℕ) : ℚ := mid - (i : ℚ) * mid * (1 / 10000)

/-- Ask price at level `i`: `mid + (i as f64) * mid * 0.0001` (line 119). -/
def askPrice (mid : ℚ) (i : ℕ) : ℚ := mid + (i : ℚ) * mid * (1 / 10000)

/-- The five bid and five ask levels built by the `for i in 0..5` loop
(lines 115-122); `bidSz i` and `askSz i` stand for the random sizes
drawn from `gen_range(0.1..10.0)`. -/
def bookLevels (mid : ℚ) (bidSz askSz : ℕ → ℚ) :
    List (ℚ × ℚ) × List (ℚ × ℚ) :=
  ((List.range 5).map fun i => (bidPrice mid i, bidSz i),
   (List.range 5).map fun i => (askPrice mid i, askSz i))

/-! ### Canonical trade events -/

structure TradeEvent where
  symbol : String
  price : ℚ
  size : ℚ
  side : String
  ts : ℤ
deriving DecidableEq, Repr

/-- The property §8 of the spec asserts of every published trade. -/
def tradeOk (t : TradeEvent) : Prop :=
  (t.side = "buy" ∨ t.side = "sell") ∧ 0 < t.size

instance (t : TradeEvent) : Decidable (tradeOk t) := by unfold tradeOk; infer_instance

/-! ### Simulated trade generator (`main.rs`, stream 3)

Per cycle: a uniformly chosen symbol, a base price plus a bounded random
offset, a random size from `gen_range(0.01..5.0)` and a fair-coin side.
The random draws become the parameters `offset`, `size`, `isBuy`. -/

/-- Symbols the trade stream chooses from (line 152). -/
def tradeSymbols : List String := ["BTC/USD", "ETH/USD", "SOL/USD"]

/-- Base price per symbol in the `match symbol` (lines 157-161). -/
def tradeBasePrice (symbol : String) : ℚ :=
  if symbol = "BTC/USD" then 45000 else if symbol = "ETH/USD" then 2500 else 120

/-- The trade event built in lines 162-169. -/
def simTrade (symbol : String) (offset size : ℚ) (isBuy : Bool) (ts : ℤ) : TradeEvent :=
  { symbol := symbol
    price := round2 (tradeBasePrice symbol + offset)
    size := size
    side := if isBuy then "buy" else "sell"
    ts := ts }

/-! ### Live ingestion (`live_data.rs`) -/

/-- Model of `str::to_uppercase()`, character-wise (the symbols involved are
ASCII). -/
def toUpperStr (s : String) : String := String.mk (s.data.map Char.toUpper)

/-- The function `normalize_symbol` (lines 193-200): uppercase, then the fixed
lookup table, with unmapped identifiers passed through uppercased. -/
def normalizeSymbol (binanceSymbol : String) : String :=
  match toUpperStr binanceSymbol with
  | "BTCUSDT" => "BTC/USD"
  | "ETHUSDT" => "ETH/USD"
  | "SOLUSDT" => "SOL/USD"
  | _ => toUpperStr binanceSymbol

/-- Digit run to a number: `none` unless every character is a decimal
digit. -/
def digitsToNatAux : List Char → ℕ → Option ℕ
  | [], acc => some acc
  | c :: rest, acc =>
    if c.isDigit then digitsToNatAux rest (acc * 10 + (c.toNat - 48)) else none

/-- A nonempty all-digit run parsed as a natural number. -/
def digitsToNat? (cs : List Char) : Option ℕ :=
  match cs with
  | [] => none
  | _ => digitsToNatAux cs 0

/-- Split a character run at the first dot, keeping the remainder. -/
def breakAtDot : List Char → List Char × Option (List Char)
  | [] => ([], none)
  | c :: rest =>
    if c = '.' then ([], some rest)
    else
      let (intCs, fracCs) := breakAtDot rest
      (c :: intCs, fracCs)

/-- Model of `str::parse::<f64>` on the decimal strings Binance sends, modelled
as exact decimal parsing into `ℚ`: an optional leading minus sign, a
digit run, and an optional fractional digit run after a dot.  (The
exotic forms `f64::from_str` additionally accepts — exponents,
infinities, a missing digit run on one side of the dot — do not occur
in these payloads and are out of scope.) -/
def parseDecimal (s : String) : Option ℚ :=
  let (sgn, cs) : ℚ × List Char :=
    match s.data with
    | '-' :: rest => (-1, rest)
    | cs => (1, cs)
  match breakAtDot cs with
  | (intCs, none) => (digitsToNat? intCs).map fun n => sgn * (n : ℚ)
  | (intCs, some fracCs) =>
    match digitsToNat? intCs, digitsToNat? fracCs with
    | some a, some b => some (sgn * ((a : ℚ) + (b : ℚ) / 10 ^ fracCs.length))
    | _, _ => none

/-- The envelope two-case parse of `transform_binance_trade`
(lines 169-173): a combined-stream message carries the trade under a
`"data"` field; otherwise the value itself is the trade. -/
def unwrapEnvelope (j : Json) : Json :=
  match j.get "data" with
  | some streamData => streamData
  | none => j

/-- The flat field extraction of `transform_binance_trade`
(lines 175-187) applied to the (possibly unwrapped) trade object.
`ts` models `chrono::Utc::now().timestamp_micros()`. -/
def transformTradeFields (ts : ℤ) (td : Json) : Option TradeEvent := do
  let symJson ← td.get "s"
  let sym ← symJson.asStr
  let priceJson ← td.get "p"
  let priceStr ← priceJson.asStr
  let price ← parseDecimal priceStr
  let sizeJson ← td.get "q"
  let sizeStr ← sizeJson.asStr
  let size ← parseDecimal sizeStr
  let mJson ← td.get "m"
  let isBuyerMaker ← mJson.asBool
  pure { symbol := normalizeSymbol sym
         price := price
         size := size
         side := if isBuyerMaker then "sell" else "buy"
         ts := ts }

/-- The function `transform_binance_trade` (lines 167-190): unwrap the combined
stream envelope if present, then extract the flat trade fields. -/
def transformBinanceTrade (ts : ℤ) (j : Json) : Option TradeEvent :=
  transformTradeFields ts (unwrapEnvelope j)

/-- The quantity a payload carries: the `"q"` field of the (possibly
unwrapped) trade object, parsed as a decimal string. -/
def payloadQty (j : Json) : Option ℚ :=
  ((unwrapEnvelope j).get "q").bind Json.asStr |>.bind parseDecimal

/-- Modelled from the spec: the clamp the wire-protocol section
prescribes for inbound frequency values, `clamp(v, 10, 1000)`. -/
def specClamp (v lo hi : ℕ) : ℕ := min (max v lo) hi

/-! ### Concrete payloads used as test vectors -/

/-- A flat upstream trade payload whose quantity string is `"0"`. -/
def zeroQtyTradePayload : Json :=
  Json.obj [("s", Json.str "BTCUSDT"), ("p", Json.str "100"),
            ("q", Json.str "0"), ("m", Json.bool false)]

/-- The trade event the translation produces from
`zeroQtyTradePayload`. -/
def zeroQtyTrade : TradeEvent :=
  { symbol := "BTC/USD", price := 100, size := 0, side := "buy", ts := 0 }

/-- A flat upstream trade payload with a positive quantity. -/
def goodLiveTradePayload : Json :=
  Json.obj [("s", Json.str "SOLUSDT"), ("p", Json.str "120.5"),
            ("q", Json.str "2"), ("m", Json.bool false)]

/-- The trade event the translation produces from
`goodLiveTradePayload`. -/
def goodLiveTrade : TradeEvent :=
  { symbol := "SOL/USD", price := 241 / 2, size := 2, side := "buy", ts := 0 }

/-- The flat trade object inside `envTradePayload`. -/
def innerTradePayload : Json :=
  Json.obj [("s", Json.str "ETHUSDT"), ("p", Json.str "2500.5"),
            ("q", Json.str "1.5"), ("m", Json.bool true)]

/-- A combined-stream message: the trade object nested under `"data"`
next to the stream identifier. -/
def envTradePayload : Json :=
  Json.obj [("stream", Json.str "ethusdt@trade"), ("data", innerTradePayload)]

/-- The trade event the translation produces from `envTradePayload`
(`m = true`, so the side is `"sell"`). -/
def envSellTrade : TradeEvent :=
  { symbol := "ETH/USD", price := 5001 / 2, size := 3 / 2, side := "sell", ts := 0 }

/-! ### Theorems -/

/-- Inverting a successful field extraction: the side of the produced
trade is the inversion of the payload's `"m"` flag. -/
theorem transformTradeFields_side (ts : ℤ) (td : Json) (t : TradeEvent)
    (h : transformTradeFields ts td = some t) :
    ∃ m : Bool, (td.get "m").bind Json.asBool = some m ∧
      t.side = if m then "sell" else "buy" := by
  simp only [transformTradeFields, bind, Option.bind_eq_some, Option.pure_def,
    Option.some.injEq] at h
  obtain ⟨s1, hs1, s2, hs2, p1, hp1, p2, hp2, p3, hp3, q1, hq1, q2, hq2, q3, hq3,
    m1, hm1, m2, hm2, ht⟩ := h
  refine ⟨m2, ?_, ?_⟩
  · rw [hm1]; simpa using hm2
  · rw [← ht]

/-- Inverting a successful field extraction: the size of the produced
trade is exactly the parsed `"q"` quantity, with no further check. -/
theorem transformTradeFields_size (ts : ℤ) (td : Json) (t : TradeEvent)
    (h : transformTradeFields ts td = some t) :
    ∃ q : ℚ, ((td.get "q").bind Json.asStr).bind parseDecimal = some q ∧
      t.size = q := by
  simp only [transformTradeFields, bind, Option.bind_eq_some, Option.pure_def,
    Option.some.injEq] at h
  obtain ⟨s1, hs1, s2, hs2, p1, hp1, p2, hp2, p3, hp3, q1, hq1, q2, hq2, q3, hq3,
    m1, hm1, m2, hm2, ht⟩ := h
  refine ⟨q3, ?_, ?_⟩
  · rw [hq1]; simp [hq2, hq3]
  · rw [← ht]

/-- Claim C4 (counterexample): the claim requires `size > 0` for every
published trade, but the live translation passes the upstream quantity
through unchecked — a payload with quantity string `"0"` produces a
published trade of size 0. -/
theorem live_trade_zero_size :
    transformBinanceTrade 0 zeroQtyTradePayload = some zeroQtyTrade ∧
    ¬ tradeOk zeroQtyTrade := by
  constructor
  · simp [transformBinanceTrade, transformTradeFields, unwrapEnvelope, Json.get,
      findField, Json.asStr, Json.asBool, parseDecimal, breakAtDot, digitsToNat?,
      digitsToNatAux, normalizeSymbol, toUpperStr, zeroQtyTradePayload, zeroQtyTrade]
  · simp [tradeOk, zeroQtyTrade]

/-- Claim C4 (amended): every published trade's side is exactly `"buy"`
or `"sell"`; the size is strictly positive for every simulated trade
(whose size is drawn from `[0.01, 5.0)`), while a live-translated
trade's size is the upstream payload quantity passed through unchecked,
hence positive exactly when that quantity is positive. -/
theorem trade_side_size_provenance :
    (∀ (symbol : String) (offset size : ℚ) (isBuy : Bool) (ts : ℤ),
        1 / 100 ≤ size → tradeOk (simTrade symbol offset size isBuy ts)) ∧
    (∀ (ts : ℤ) (j : Json) (t : TradeEvent),
        transformBinanceTrade ts j = some t →
        t.side = "buy" ∨ t.side = "sell") ∧
    (∀ (ts : ℤ) (j : Json) (t : TradeEvent) (q : ℚ),
        transformBinanceTrade ts j = some t → payloadQty j = some q →
        t.size = q ∧ (0 < q → 0 < t.size)) := by
  refine ⟨?_, ?_, ?_⟩
  · intro symbol offset size isBuy ts hsz
    constructor
    · cases isBuy <;> simp [simTrade]
    · show (0 : ℚ) < (simTrade symbol offset size isBuy ts).size
      simp only [simTrade]
      linarith
  · intro ts j t h
    obtain ⟨m, _, hside⟩ := transformTradeFields_side ts (unwrapEnvelope j) t h
    cases m
    · left; simpa using hside
    · right; simpa using hside
  · intro ts j t q h hq
    obtain ⟨q', hq', hsz⟩ := transformTradeFields_size ts (unwrapEnvelope j) t h
    have hqq : q' = q := by
      have : payloadQty j = some q' := hq'
      rw [hq] at this
      exact (Option.some.injEq _ _ ▸ this).symm
    subst hqq
    exact ⟨hsz, fun hpos => hsz ▸ hpos⟩

/-- Claim C4 (witness): a simulated trade with size 1, and the live
trade translated from `goodLiveTradePayload` with quantity 2. -/
theorem trade_side_size_provenance_witness :
    tradeOk (simTrade "BTC/USD" 0 1 true 0) ∧
    (goodLiveTrade.side = "buy" ∨ goodLiveTrade.side = "sell") ∧
    (goodLiveTrade.size = 2 ∧ ((0 : ℚ) < 2 → 0 < goodLiveTrade.size)) := by
  have htrans : transformBinanceTrade 0 goodLiveTradePayload = some goodLiveTrade := by
    simp [transformBinanceTrade, transformTradeFields, unwrapEnvelope, Json.get,
      findField, Json.asStr, Json.asBool, parseDecimal, breakAtDot, digitsToNat?,
      digitsToNatAux, normalizeSymbol, toUpperStr, goodLiveTradePayload, goodLiveTrade]
    norm_num
  have hq : payloadQty goodLiveTradePayload = some 2 := by
    simp [payloadQty, unwrapEnvelope, Json.get, findField, Json.asStr,
      parseDecimal, breakAtDot, digitsToNat?, digitsToNatAux, goodLiveTradePayload]
  exact ⟨trade_side_size_provenance.1 "BTC/USD" 0 1 true 0 (by norm_num),
    trade_side_size_provenance.2.1 0 goodLiveTradePayload goodLiveTrade htrans,
    trade_side_size_provenance.2.2 0 goodLiveTradePayload goodLiveTrade 2 htrans hq⟩

/-- Claim C5: the upstream trade translation is an explicit two-case
parse — a message with an enclosing `"data"` envelope field is
unwrapped and translated from the inner object, one without it is
translated from the flat structure — and the produced side inverts the
payload's "buyer is maker" flag: `m = true` gives `"sell"`, `m = false`
gives `"buy"`. -/
theorem trade_envelope_side_inversion :
    (∀ (ts : ℤ) (fields : List (String × Json)) (inner : Json),
        findField fields "data" = some inner →
        transformBinanceTrade ts (Json.obj fields) = transformTradeFields ts inner) ∧
    (∀ (ts : ℤ) (j : Json), j.get "data" = none →
        transformBinanceTrade ts j = transformTradeFields ts j) ∧
    (∀ (ts : ℤ) (j : Json) (t : TradeEvent) (m : Bool),
        transformBinanceTrade ts j = some t →
        ((unwrapEnvelope j).get "m").bind Json.asBool = some m →
        t.side = if m then "sell" else "buy") := by
  refine ⟨?_, ?_, ?_⟩
  · intro ts fields inner h
    simp only [transformBinanceTrade, unwrapEnvelope, Json.get, h]
  · intro ts j h
    simp only [transformBinanceTrade, unwrapEnvelope, h]
  · intro ts j t m h hm
    obtain ⟨m', hm', hside⟩ := transformTradeFields_side ts (unwrapEnvelope j) t h
    rw [hm] at hm'
    cases hm'
    exact hside

/-- A half-away-from-zero rounding differs from its argument by at most
one half. -/
theorem rustRound_close (x : ℚ) (hx : 0 ≤ x) :
    |((rustRound x : ℤ) : ℚ) - x| ≤ 1 / 2 := by
  unfold rustRound
  rw [if_pos hx, abs_le]
  constructor
  · have h := Int.sub_one_lt_floor (x + 1 / 2)
    linarith
  · have h := Int.floor_le (x + 1 / 2)
    linarith

/-- Rounding to two decimals moves a nonnegative value by at most half
a cent. -/
theorem round2_close (x : ℚ) (hx : 0 ≤ x) : |round2 x - x| ≤ 1 / 200 := by
  have h := rustRound_close (x * 100) (by positivity)
  unfold round2
  have heq : ((rustRound (x * 100) : ℤ) : ℚ) / 100 - x =
      (((rustRound (x * 100) : ℤ) : ℚ) - x * 100) / 100 := by ring
  rw [heq, abs_div, abs_of_pos (by norm_num : (0 : ℚ) < 100)]
  linarith

/-- A constant-perturbation walk is a power of the per-tick factor. -/
theorem runWalk_replicate (c : ℚ) : ∀ (n : ℕ) (p : ℚ),
    runWalk p (List.replicate n c) = p * (1 + c) ^ n
  | 0, p => by simp [runWalk]
  | n + 1, p => by
    rw [List.replicate_succ]
    show runWalk (priceStep p c) (List.replicate n c) = p * (1 + c) ^ (n + 1)
    rw [runWalk_replicate c n (priceStep p c)]
    unfold priceStep
    ring

/-- Predicate `List.Forall` holds on a replicated list when it holds on the
replicated element. -/
theorem forall_replicate {α : Type} (P : α → Prop) (c : α) (h : P c) :
    ∀ n : ℕ, (List.replicate n c).Forall P
  | 0 => trivial
  | n + 1 => by
    rw [List.replicate_succ, List.forall_cons]
    exact ⟨h, forall_replicate P c h n⟩

/-- After 5100 maximal downward ticks the running price has fallen
below half a cent, so rounding to two decimals yields zero. -/
theorem emitted_walk_zero : emittedPrice (120 * ((499 : ℚ) / 500) ^ 5100) = 0 := by
  have hnat : (499 : ℕ) ^ 5100 * 24000 < 1 * 500 ^ 5100 := by norm_num
  have hX : ((499 : ℚ) / 500) ^ 5100 < 1 / 24000 := by
    rw [div_pow, div_lt_div_iff₀ (by positivity) (by norm_num)]
    exact_mod_cast hnat
  have hXpos : (0 : ℚ) < ((499 : ℚ) / 500) ^ 5100 := by positivity
  unfold emittedPrice round2 rustRound
  rw [if_pos (by positivity)]
  have hfloor : ⌊120 * ((499 : ℚ) / 500) ^ 5100 * 100 + 1 / 2⌋ = 0 := by
    rw [Int.floor_eq_iff]
    constructor
    · push_cast
      nlinarith
    · push_cast
      nlinarith
  rw [hfloor]
  norm_num

/-- Claim C7 (counterexample): the claim asserts, for every emitted
price, positivity and an emitted-to-emitted relative change within the
±0.2% perturbation bound.  Both fail.  (A) Two in-range ticks from the
initial BTC price 45000 produce emitted prices 44999.99 and 45089.99,
whose relative change 90/44999.99 exceeds 1/500.  (B) 5100 maximal
downward in-range ticks from the initial SOL price 120 drive the
running price below half a cent, so the emitted price rounds to 0. -/
theorem price_claim_violations :
    (perturbOk (-(1 / 4500000)) ∧ perturbOk (199999 / 100000000) ∧
      1 / 500 < |emittedPrice (priceStep (priceStep 45000 (-(1 / 4500000)))
          (199999 / 100000000)) / emittedPrice (priceStep 45000 (-(1 / 4500000))) - 1|) ∧
    ((List.replicate 5100 (-(1 / 500))).Forall perturbOk ∧
      emittedPrice (runWalk 120 (List.replicate 5100 (-(1 / 500)))) = 0) := by
  constructor
  · refine ⟨by norm_num [perturbOk], by norm_num [perturbOk], ?_⟩
    have e1 : emittedPrice (priceStep 45000 (-(1 / 4500000))) = 4499999 / 100 := by
      norm_num [emittedPrice, round2, rustRound, priceStep]
    have e2 : emittedPrice (priceStep (priceStep 45000 (-(1 / 4500000)))
        (199999 / 100000000)) = 4508999 / 100 := by
      norm_num [emittedPrice, round2, rustRound, priceStep]
    rw [e1, e2, abs_of_pos (by norm_num)]
    norm_num
  · refine ⟨forall_replicate perturbOk _ (by norm_num [perturbOk]) 5100, ?_⟩
    have hw : runWalk 120 (List.replicate 5100 (-(1 / 500))) =
        120 * ((499 : ℚ) / 500) ^ 5100 := by
      rw [runWalk_replicate]; norm_num
    exact (congrArg emittedPrice hw).trans emitted_walk_zero

/-- Claim C7 (amended): each simulated price tick multiplies a positive
running price by a factor in `[0.998, 1.002)`, so the running price
stays strictly positive and its relative change is within the ±0.2%
bound; the emitted price — the running price rounded to two decimals —
differs from it by at most half a cent, and is strictly positive
whenever the running price is at least 0.01.  (As the counterexample
shows, the rounding slack lets the emitted-to-emitted relative change
slightly exceed the bound, and an adversarial run can push the emitted
price to zero.) -/
theorem price_tick_bounds (p c : ℚ) (hp : 0 < p) (hc : perturbOk c) :
    0 < priceStep p c ∧
    |priceStep p c / p - 1| ≤ 1 / 500 ∧
    |emittedPrice (priceStep p c) - priceStep p c| ≤ 1 / 200 ∧
    (1 / 100 ≤ p → 0 < emittedPrice (priceStep p c)) := by
  obtain ⟨hc1, hc2⟩ := hc
  have hfac : 0 < 1 + c := by linarith
  have hpos : 0 < priceStep p c := by
    unfold priceStep; exact mul_pos hp hfac
  refine ⟨hpos, ?_, round2_close _ hpos.le, ?_⟩
  · have hrel : priceStep p c / p - 1 = c := by
      unfold priceStep; field_simp
    rw [hrel, abs_le]
    exact ⟨by linarith, by linarith⟩
  · intro hp100
    have hlow : 499 / 50000 ≤ priceStep p c := by
      unfold priceStep; nlinarith
    unfold emittedPrice round2 rustRound
    rw [if_pos (by positivity)]
    have hfloor : (1 : ℤ) ≤ ⌊priceStep p c * 100 + 1 / 2⌋ := by
      rw [Int.le_floor]
      push_cast
      linarith
    have hge : (1 : ℚ) ≤ ((⌊priceStep p c * 100 + 1 / 2⌋ : ℤ) : ℚ) := by
      exact_mod_cast hfloor
    linarith

/-- Claim C7 (witness): one tick from the initial BTC price 45000 with
perturbation 0.001. -/
theorem price_tick_bounds_witness :
    0 < priceStep 45000 (1 / 1000) ∧
    |priceStep 45000 (1 / 1000) / 45000 - 1| ≤ 1 / 500 ∧
    |emittedPrice (priceStep 45000 (1 / 1000)) - priceStep 45000 (1 / 1000)| ≤ 1 / 200 ∧
    (1 / 100 ≤ (45000 : ℚ) → 0 < emittedPrice (priceStep 45000 (1 / 1000))) :=
  price_tick_bounds 45000 (1 / 1000) (by norm_num) (by norm_num [perturbOk])

/-- Claim C5 (witness): the enveloped message `envTradePayload` is
translated from its inner object, a flat message from itself, and the
maker-buy flag `m = true` yields side `"sell"`. -/
theorem trade_envelope_side_inversion_witness :
    transformBinanceTrade 0 envTradePayload = transformTradeFields 0 innerTradePayload ∧
    transformBinanceTrade 0 innerTradePayload = transformTradeFields 0 innerTradePayload ∧
    envSellTrade.side = (if true then "sell" else "buy") := by
  have htrans : transformBinanceTrade 0 envTradePayload = some envSellTrade := by
    simp [transformBinanceTrade, transformTradeFields, unwrapEnvelope, Json.get,
      findField, Json.asStr, Json.asBool, parseDecimal, breakAtDot, digitsToNat?,
      digitsToNatAux, normalizeSymbol, toUpperStr, envTradePayload,
      innerTradePayload, envSellTrade]
    norm_num
  have hm : ((unwrapEnvelope envTradePayload).get "m").bind Json.asBool = some true := rfl
  exact ⟨trade_envelope_side_inversion.1 0 _ innerTradePayload rfl,
    trade_envelope_side_inversion.2.1 0 innerTradePayload rfl,
    trade_envelope_side_inversion.2.2 0 envTradePayload envSellTrade true htrans hm⟩

/-- Claim C1 (counterexample): the claim says lag alone never terminates
the session, but one loop iteration in which the hub cursor reports lag
breaks out of the loop: `Err(_) => break` in `ws_connection` covers
`RecvError::Lagged` as well as `RecvError::Closed`. -/
theorem lagged_cursor_terminates_session :
    sessionStep 50 (SessionEvent.hub HubRecv.lagged true) = none := rfl

/-- Claim C1 (amended): a lagged hub cursor terminates the session
exactly as a closed hub channel does; a transport send failure and a
closed or ended connection also terminate it, while a successful hub
receive is forwarded verbatim and the session continues. -/
theorem session_termination_behavior (s : ℕ) (b : Bool) (m : String) :
    sessionStep s (SessionEvent.hub HubRecv.lagged b) = none ∧
    sessionStep s (SessionEvent.hub HubRecv.closed b) = none ∧
    sessionStep s (SessionEvent.hub (HubRecv.ok m) false) = none ∧
    sessionStep s (SessionEvent.hub (HubRecv.ok m) true) = some (s, some m) ∧
    sessionStep s (SessionEvent.sock SockRecv.close) = none ∧
    sessionStep s (SessionEvent.sock SockRecv.streamEnd) = none :=
  ⟨rfl, rfl, rfl, rfl, rfl, rfl⟩

/-- Claim C2: processing a valid control frame `{"frequency_ms": v}`
stores exactly `clamp(v, 10, 1000)` in the shared frequency value — the
code's `freq.max(10).min(1000)` agrees with the spec's clamp — and the
session continues without sending anything. -/
theorem control_frame_roundtrip (s v : ℕ) (hv : v < 2 ^ 64) :
    sessionStep s (SessionEvent.sock (SockRecv.text
        (some (Json.obj [("frequency_ms", Json.num (v : ℚ))])))) =
      some (specClamp v 10 1000, none) := by
  have hcond : ((v : ℚ)).den = 1 ∧ 0 ≤ ((v : ℚ)).num ∧ ((v : ℚ)).num < 2 ^ 64 := by
    refine ⟨Rat.den_natCast v, ?_, ?_⟩
    · rw [Rat.num_natCast]; exact Int.natCast_nonneg v
    · rw [Rat.num_natCast]; exact_mod_cast hv
  have hu : parseU64 (Json.num (v : ℚ)) = some v := by
    simp only [parseU64]
    rw [if_pos hcond, Rat.num_natCast, Int.toNat_natCast]
  have hparse : parseControlMsg (Json.obj [("frequency_ms", Json.num (v : ℚ))]) =
      some (some v) := by
    simp only [parseControlMsg, collectFreqField, if_pos, parseOptU64, hu]
    rfl
  have hstep : ∀ (j : Json),
      sessionStep s (SessionEvent.sock (SockRecv.text (some j))) =
        some (controlUpdate s j, none) := fun _ => rfl
  have hctrl : ∀ (j : Json), parseControlMsg j = some (some v) →
      controlUpdate s j = clampFreq v := by
    intro j hp; simp only [controlUpdate, hp]
  rw [hstep, hctrl _ hparse]; rfl

/-- Claim C2 (witness): the end-to-end scenario of §8 — frequency 5 is
floor-clamped to 10. -/
theorem control_frame_roundtrip_witness :
    sessionStep 50 (SessionEvent.sock (SockRecv.text
        (some (Json.obj [("frequency_ms", Json.num (5 : ℕ))])))) =
      some (specClamp 5 10 1000, none) :=
  control_frame_roundtrip 50 5 (by norm_num)

/-- Claim C9: an inbound text frame that is not a well-formed control
frame carrying a frequency value — malformed JSON (`t = none`), or JSON
whose deserialization fails or yields no `frequency_ms` — is ignored:
the shared frequency value is unchanged, nothing is sent to the
subscriber, and the session continues. -/
theorem malformed_control_frame_ignored (s : ℕ) (t : Option Json)
    (h : ∀ j, t = some j →
      parseControlMsg j = none ∨ parseControlMsg j = some none) :
    sessionStep s (SessionEvent.sock (SockRecv.text t)) = some (s, none) := by
  cases t with
  | none => rfl
  | some j =>
    rcases h j rfl with h1 | h1 <;>
      simp only [sessionStep, controlUpdate, h1]

/-- Claim C9 (witness): a frame with a negative `frequency_ms` and a
frame of another object shape are both ignored. -/
theorem malformed_control_frame_ignored_witness :
    sessionStep 50 (SessionEvent.sock (SockRecv.text
        (some (Json.obj [("frequency_ms", Json.num (-5))])))) = some (50, none) ∧
    sessionStep 50 (SessionEvent.sock (SockRecv.text
        (some (Json.obj [("foo", Json.num 1)])))) = some (50, none) :=
  ⟨malformed_control_frame_ignored 50 _ (fun j hj => by
      cases hj; exact Or.inl rfl),
   malformed_control_frame_ignored 50 _ (fun j hj => by
      cases hj; exact Or.inr rfl)⟩

/-- Claim C3: per cycle the price stream sleeps `max(f, 10)` ms, the
book stream `max(2*f, 50)` ms and the trade stream `max(3*f, 50)` ms;
the book and trade cadences are strictly slower than the price cadence
and no interval falls below its floor.  `f ≤ 1000` is the invariant the
clamped store and the default 50 maintain. -/
theorem generator_sleep_intervals (f : ℕ) (hf : f ≤ 1000) :
    priceSleepMs f = max f 10 ∧
    bookSleepMs f = max (2 * f) 50 ∧
    tradeSleepMs f = max (3 * f) 50 ∧
    priceSleepMs f < bookSleepMs f ∧
    priceSleepMs f < tradeSleepMs f ∧
    10 ≤ priceSleepMs f ∧ 50 ≤ bookSleepMs f ∧ 50 ≤ tradeSleepMs f := by
  have h2 : u64Mod (f * 2) = 2 * f := by
    unfold u64Mod; rw [Nat.mod_eq_of_lt (by omega)]; ring
  have h3 : u64Mod (f * 3) = 3 * f := by
    unfold u64Mod; rw [Nat.mod_eq_of_lt (by omega)]; ring
  unfold priceSleepMs bookSleepMs tradeSleepMs
  rw [h2, h3]
  omega

/-- Claim C8: symbol normalization maps the three table entries to
their canonical forms (also when the raw identifier arrives lowercase,
since the table is consulted after uppercasing), and passes every
identifier outside the table through uppercased. -/
theorem normalize_symbol_spec (s : String)
    (h1 : toUpperStr s ≠ "BTCUSDT") (h2 : toUpperStr s ≠ "ETHUSDT")
    (h3 : toUpperStr s ≠ "SOLUSDT") :
    normalizeSymbol "BTCUSDT" = "BTC/USD" ∧
    normalizeSymbol "btcusdt" = "BTC/USD" ∧
    normalizeSymbol "ETHUSDT" = "ETH/USD" ∧
    normalizeSymbol "ethusdt" = "ETH/USD" ∧
    normalizeSymbol "SOLUSDT" = "SOL/USD" ∧
    normalizeSymbol "solusdt" = "SOL/USD" ∧
    normalizeSymbol s = toUpperStr s := by
  refine ⟨by decide, by decide, by decide, by decide, by decide, by decide, ?_⟩
  unfold normalizeSymbol
  split
  · exact absurd (by assumption) h1
  · exact absurd (by assumption) h2
  · exact absurd (by assumption) h3
  · rfl

/-- Claim C8 (witness): an identifier outside the table is passed
through uppercased. -/
theorem normalize_symbol_spec_witness :
    normalizeSymbol "BTCUSDT" = "BTC/USD" ∧
    normalizeSymbol "btcusdt" = "BTC/USD" ∧
    normalizeSymbol "ETHUSDT" = "ETH/USD" ∧
    normalizeSymbol "ethusdt" = "ETH/USD" ∧
    normalizeSymbol "SOLUSDT" = "SOL/USD" ∧
    normalizeSymbol "solusdt" = "SOL/USD" ∧
    normalizeSymbol "aapl" = toUpperStr "aapl" :=
  normalize_symbol_spec "aapl" (by decide) (by decide) (by decide)

/-- Claim C6: in every synthetic book event the five bid prices are
non-increasing from level 0 to level 4, the five ask prices are
non-decreasing, and no bid price exceeds the lowest ask price (level-0
ask, which the non-decrease makes minimal).  This holds for every
symbol string the mid-price selection can see and all drawn sizes. -/
theorem book_depth_ordered (s : String) (bidSz askSz : ℕ → ℚ) :
    ((bookLevels (bookMid s) bidSz askSz).1).length = 5 ∧
    ((bookLevels (bookMid s) bidSz askSz).2).length = 5 ∧
    (((bookLevels (bookMid s) bidSz askSz).1).map Prod.fst).Pairwise (fun a b => b ≤ a) ∧
    (((bookLevels (bookMid s) bidSz askSz).2).map Prod.fst).Pairwise (fun a b => a ≤ b) ∧
    (((bookLevels (bookMid s) bidSz askSz).1).map Prod.fst).Forall
      (fun p => p ≤ askPrice (bookMid s) 0) ∧
    (((bookLevels (bookMid s) bidSz askSz).2).map Prod.fst).Forall
      (fun p => askPrice (bookMid s) 0 ≤ p) := by
  have hmid : 0 < bookMid s := by
    unfold bookMid; split <;> norm_num
  refine ⟨rfl, rfl, ?_, ?_, ?_, ?_⟩ <;>
    · simp only [bookLevels, List.range_succ, List.range_zero, List.nil_append,
        List.cons_append, List.map_cons, List.map_nil, List.pairwise_cons,
        List.Forall, List.mem_cons, List.mem_singleton, List.not_mem_nil,
        bidPrice, askPrice]
      norm_num
      repeat' apply And.intro
      all_goals nlinarith [hmid]

/-- Claim C10 (implicit): the per-level offset vanishes at level 0, so
the level-0 bid and ask both equal the symbol's reference mid-price and
the top-of-book spread is zero. -/
theorem book_top_spread_zero (s : String) :
    bidPrice (bookMid s) 0 = bookMid s ∧
    askPrice (bookMid s) 0 = bookMid s ∧
    askPrice (bookMid s) 0 - bidPrice (bookMid s) 0 = 0 := by
  unfold bidPrice askPrice
  norm_num

/-- Claim C3 (witness): at the default frequency 50 the intervals are
50, 100 and 150 ms. -/
theorem generator_sleep_intervals_witness :
    priceSleepMs 50 = max 50 10 ∧
    bookSleepMs 50 = max (2 * 50) 50 ∧
    tradeSleepMs 50 = max (3 * 50) 50 ∧
    priceSleepMs 50 < bookSleepMs 50 ∧
    priceSleepMs 50 < tradeSleepMs 50 ∧
    10 ≤ priceSleepMs 50 ∧ 50 ≤ bookSleepMs 50 ∧ 50 ≤ tradeSleepMs 50 :=
  generator_sleep_intervals 50 (by norm_num)

end MarketServer
